import Mathlib

/-!
Verification development for the astroid/astng inference core.

The definitions below are shallow embeddings of the Python sources:
  * `src/inference.py`   — `CallContext.infer_argument`, `infer_name`,
    `infer_subscript`, the per-kind `infer` rules;
  * `src/astroid/node_classes.py` — `are_exclusive`,
    `LookupMixIn._filter_stmts`, `Arguments.default_value`, `_find_arg`,
    `Dict.getitem`, `List.getitem`, `Tuple.getitem`, `Const.getitem`,
    `ExceptHandler.catch`, `const_factory`.
Machine-level Python behaviour (list indexing, dict lookup, exception
classes) is modelled explicitly; exceptions become an `Err` sum returned
through `Except`.
-/

set_option autoImplicit false

/-- Python scalar values carried by `Const` nodes (the claims only need
ints and strings). -/
inductive PyVal where
  | int (n : Int)
  | str (s : String)
deriving DecidableEq, Repr

/-- The exception kinds that the inference core raises and catches:
`InferenceError`, `UnresolvableName`, `NoDefault` (from
`astroid.exceptions`), and the Python builtins `AttributeError`,
`IndexError`, `TypeError` that the code traps around `getitem`/`iter`. -/
inductive Err where
  | inferenceError
  | unresolvableName
  | noDefault
  | attrErr
  | indexErr
  | typeErr
deriving DecidableEq, Repr

/-- Syntax-tree value nodes, covering the node kinds the claims exercise.
`emptyN` is an `EmptyNode` with no underlying object (its inference rule
yields YES), `sliceN` stands for a node kind with no `infer` rule
registered (so `infer_default` raises `InferenceError`), `classN` a class
definition node, `instN` an `Instance` wrapper as built by
`Instance(boundnode)` in `infer_argument`. -/
inductive SNode where
  | const (v : PyVal)
  | lst (elts : List SNode)
  | tup (elts : List SNode)
  | dictN (items : List (SNode × SNode))
  | classN (name : String)
  | instN (of : SNode)
  | emptyN
  | sliceN

/-- An inferred value: either a concrete node or the YES/Unknown sentinel. -/
inductive IVal where
  | yes
  | node (n : SNode)

/-- The `infer` rules of `src/inference.py` for the kinds above, with the
produced lazy sequence consumed into a list:
`infer_end` (`Const`, `List`, `Tuple`, `Dict`, `Class`) yields the node
itself; `infer_empty_node` on an `EmptyNode` without an underlying object
yields YES; a node kind with no `infer` attribute falls back to
`infer_default`, which raises `InferenceError`.  These rules ignore the
inference context. -/
def inferSN : SNode → Except Err (List IVal)
  | .const v => .ok [.node (.const v)]
  | .lst elts => .ok [.node (.lst elts)]
  | .tup elts => .ok [.node (.tup elts)]
  | .dictN items => .ok [.node (.dictN items)]
  | .classN n => .ok [.node (.classN n)]
  | .instN o => .ok [.node (.instN o)]
  | .emptyN => .ok [.yes]
  | .sliceN => .error .inferenceError

/-- Python sequence indexing `elts[i]` for an `int` index: non-negative
indices count from the front, negative ones from the back, anything else
raises `IndexError`. -/
def pyGet {α : Type} (elts : List α) (i : Int) : Except Err α :=
  if h : 0 ≤ i ∧ i.toNat < elts.length then
    .ok (elts.get ⟨i.toNat, h.2⟩)
  else if h' : i < 0 ∧ 0 ≤ i + elts.length ∧ (i + elts.length).toNat < elts.length then
    .ok (elts.get ⟨(i + elts.length).toNat, h'.2.2⟩)
  else
    .error .indexErr

/-- `Dict.getitem` (src/astroid/node_classes.py lines 748-758): scan the
items in order; infer each key; skip inferred keys that are YES; return
the value of the first item whose key infers to a `Const` equal to the
lookup key.  On no match — the empty dict included — it raises
`IndexError` (the source comments that `KeyError` would be right but all
call sites catch `IndexError`).  An error raised while inferring a key
propagates. -/
def dictGetitem (items : List (SNode × SNode)) (k : PyVal) : Except Err SNode :=
  match items with
  | [] => .error .indexErr
  | (key, value) :: rest =>
    match inferSN key with
    | .error e => .error e
    | .ok ivals =>
      if ivals.any (fun iv => match iv with
          | .node (.const v) => v = k
          | _ => false) then
        .ok value
      else
        dictGetitem rest k

/-- `getitem` dispatch over node kinds: `List.getitem`/`Tuple.getitem`
return `self.elts[index]` (node_classes.py lines 988-989 / 1200-1201);
`Const.getitem` indexes string values and raises `TypeError` otherwise
(lines 643-651); `Dict.getitem` is above; a node kind with no `getitem`
attribute gives `AttributeError` at the call site. -/
def getitemSN (n : SNode) (k : PyVal) : Except Err SNode :=
  match n, k with
  | .lst elts, .int i => pyGet elts i
  | .lst _, .str _ => .error .typeErr
  | .tup elts, .int i => pyGet elts i
  | .tup _, .str _ => .error .typeErr
  | .const (.str s), .int i =>
    match pyGet s.toList i with
    | .ok c => .ok (.const (.str (String.mk [c])))
    | .error e => .error e
  | .const _, _ => .error .typeErr
  | .dictN items, _ => dictGetitem items k
  | .classN _, _ => .error .attrErr
  | .instN _, _ => .error .attrErr
  | .emptyN, _ => .error .attrErr
  | .sliceN, _ => .error .attrErr

/-- `index.value`: only `Const` nodes carry a `value` attribute; on any
other node the access raises `AttributeError`. -/
def constValue : SNode → Option PyVal
  | .const v => some v
  | _ => none

/-- Spec-side wording of the `Dict.getitem` contract, for comparison
with the source translation `dictGetitem`: does this key infer to a
concrete constant equal to the lookup key (inferred Unknown values
skipped, failures counting as no hit)? -/
def dictKeyHit (key : SNode) (k : PyVal) : Bool :=
  match inferSN key with
  | .ok ivals =>
    ivals.any (fun iv => match iv with
      | .node (.const v) => v = k
      | _ => false)
  | .error _ => false

/-- Spec-side wording of `Dict.getitem`: the value of the first item
whose key matches; `IndexError` — not `KeyError` — when no item does,
the empty dict included. -/
def dictGetitemSpec (items : List (SNode × SNode)) (k : PyVal) : Except Err SNode :=
  match items.find? (fun kv => dictKeyHit kv.1 k) with
  | some kv => .ok kv.2
  | none => .error .indexErr

/-- One argument expression at a call site: positional, or a `Keyword`
node. -/
inductive CallArg where
  | pos (e : SNode)
  | kw (name : String) (e : SNode)

/-- Association-list update with Python-dict overwrite semantics
(`self.nargs[arg.arg] = arg.value`). -/
def assocSet (l : List (String × SNode)) (k : String) (v : SNode) : List (String × SNode) :=
  match l with
  | [] => [(k, v)]
  | (k', v') :: rest => if k' = k then (k, v) :: rest else (k', v') :: assocSet rest k v

/-- Association-list lookup (`self.nargs[name]`, raising `KeyError` as
`none`). -/
def assocGet (l : List (String × SNode)) (k : String) : Option SNode :=
  match l with
  | [] => none
  | (k', v) :: rest => if k' = k then some v else assocGet rest k

/-- `CallContext` (src/inference.py lines 80-93): positional argument
expressions in order, keyword-name map, optional `*`/`**` expressions. -/
structure CallCtx where
  args : List SNode
  nargs : List (String × SNode)
  starargs : Option SNode
  dstarargs : Option SNode

/-- `CallContext.__init__`: split the call-site argument list into
positional arguments and the keyword map. -/
def mkCallContext (callArgs : List CallArg) (st dst : Option SNode) : CallCtx :=
  let init := callArgs.foldl
    (fun (acc : List SNode × List (String × SNode)) a =>
      match a with
      | .kw n e => (acc.1, assocSet acc.2 n e)
      | .pos e => (acc.1 ++ [e], acc.2))
    ([], [])
  ⟨init.1, init.2, st, dst⟩

/-- `funcnode.type`: how the function definition is classified. -/
inductive FType where
  | method
  | classmethod
  | staticmethod
  | function
deriving DecidableEq

/-- The `Arguments` node data `infer_argument` and `default_value`
consult.  `args` holds the declared parameter names in order (tuple
parameters, skipped by `_find_arg` without `rec`, are not modelled). -/
structure ArgsNode where
  args : List String
  defaults : List SNode
  kwonlyargs : List String
  kw_defaults : List (Option SNode)
  vararg : Option String
  kwarg : Option String

/-- A function-definition node as seen by `infer_argument`:
its `Arguments`, its `type`, and `funcnode.parent.frame()` (the
lexically enclosing class, used when the context has no bound node). -/
structure FuncNode where
  args : ArgsNode
  ftype : FType
  parentFrame : SNode

/-- The inference context fields `infer_argument` reads: the bound
receiver set by `infer_getattr`. -/
structure InfCtx where
  boundnode : Option SNode

/-- `_find_arg` (node_classes.py lines 398-407) over simple named
parameters, returning the declared index; also covers
`find_argname`, which returns `(None, None)` when `self.args` is empty. -/
def findArgAux (args : List String) (argname : String) (i : Nat) : Option Nat :=
  match args with
  | [] => none
  | a :: rest => if a = argname then some i else findArgAux rest argname (i + 1)

/-- `Arguments.find_argname` / `_find_arg`: index of the declared
parameter with the given name. -/
def findArg (args : List String) (argname : String) : Option Nat :=
  findArgAux args argname 0

/-- `Arguments.default_value` (node_classes.py lines 362-375): position
the name among `args`; if its offset against the trailing `defaults`
block is non-negative, that default; else a keyword-only default if one
is declared non-None; else raise `NoDefault`. -/
def defaultValue (a : ArgsNode) (argname : String) : Except Err SNode :=
  let kwonlyPart : Except Err SNode :=
    match findArg a.kwonlyargs argname with
    | some i =>
      match a.kw_defaults.get? i with
      | some (some d) => .ok d
      | _ => .error .noDefault
    | none => .error .noDefault
  match findArg a.args argname with
  | some i =>
    let idx : Int := (i : Int) - ((a.args.length : Int) - (a.defaults.length : Int))
    if 0 ≤ idx then
      match a.defaults.get? idx.toNat with
      | some d => .ok d
      | none => .error .indexErr
    else kwonlyPart
  | none => kwonlyPart

/-- Modelled from the spec: `astroid.bases.NodeNG` is not under `src/`;
the spec's node model (§3) gives syntax nodes no iteration protocol, so
applying Python's `iter` to a node raises `TypeError`.  This models the
expression `iter((nodes.const_factory(())))` in `infer_argument` step 5,
whose argument is a parenthesized node, not a one-element tuple. -/
def iterNode (_ : SNode) : Except Err (List IVal) :=
  .error .typeErr

/-- The element-wise extraction loop shared by the `*args` and `**kwargs`
steps of `infer_argument` (src/inference.py lines 122-135 and 137-150):
for each inferred expansion value, YES contributes `(YES,)`;
`getitem` failing with `InferenceError`/`AttributeError` contributes
`(YES,)`; failing with `IndexError`/`TypeError` contributes nothing;
otherwise the extracted node's (lazy) inference is appended.  Any other
exception escapes. -/
def starItems (ivals : List IVal) (key : PyVal) : Except Err (List (Except Err (List IVal))) :=
  match ivals with
  | [] => .ok []
  | .yes :: rest => (starItems rest key).map (fun its => Except.ok [IVal.yes] :: its)
  | .node n :: rest =>
    match getitemSN n key with
    | .ok elt => (starItems rest key).map (fun its => inferSN elt :: its)
    | .error .inferenceError => (starItems rest key).map (fun its => Except.ok [IVal.yes] :: its)
    | .error .attrErr => (starItems rest key).map (fun its => Except.ok [IVal.yes] :: its)
    | .error .indexErr => starItems rest key
    | .error .typeErr => starItems rest key
    | .error e => .error e

/-- `chain(*its)`: concatenate the collected lazy sequences; an error
raised by one of them aborts consumption. -/
def chainE : List (Except Err (List IVal)) → Except Err (List IVal)
  | [] => .ok []
  | .error e :: _ => .error e
  | .ok l :: rest => (chainE rest).map (fun r => l ++ r)

/-- Steps 4-6 of `CallContext.infer_argument` (src/inference.py lines
136-160), reached when neither keyword, bound-receiver, positional nor
`*args` resolution returned: `**kwargs` extraction; the function's own
catch-all parameters (where the source applies `iter` to the
`const_factory` node itself — see `iterNode`); finally the declared
default, with `NoDefault` converted to `InferenceError(name)`. -/
def iaTail (cc : CallCtx) (f : FuncNode) (name : String) : Except Err (List IVal) :=
  let vkTail : Except Err (List IVal) :=
    if f.args.vararg = some name then iterNode (.tup [])
    else if f.args.kwarg = some name then iterNode (.dictN [])
    else
      match defaultValue f.args name with
      | .ok d => inferSN d
      | .error .noDefault => .error .inferenceError
      | .error e => .error e
  match cc.dstarargs with
  | some d =>
    (match inferSN d with
     | .error e => .error e
     | .ok ivals =>
       match starItems ivals (.str name) with
       | .error e => .error e
       | .ok its => if its.isEmpty then vkTail else chainE its)
  | none => vkTail

/-- `CallContext.infer_argument` (src/inference.py lines 95-160):
resolution in source order — named keyword; implicit first parameter of a
method/classmethod (bound receiver from the context, else the enclosing
frame); positional at the declared index; `*args` extraction; then the
tail steps of `iaTail`. -/
def inferArgument (cc : CallCtx) (f : FuncNode) (name : String) (ctx : InfCtx) : Except Err (List IVal) :=
  match assocGet cc.nargs name with
  | some e => inferSN e
  | none =>
    match findArg f.args.args name with
    | some argindex =>
      if argindex = 0 ∧ (f.ftype = .method ∨ f.ftype = .classmethod) then
        let boundnode : SNode :=
          match ctx.boundnode with
          | some b => b
          | none => f.parentFrame
        if f.ftype = .method then .ok [.node (.instN boundnode)]
        else .ok [.node boundnode]
      else
        match cc.args.get? argindex with
        | some e => inferSN e
        | none =>
          match cc.starargs with
          | some st =>
            (match inferSN st with
             | .error e => .error e
             | .ok ivals =>
               match starItems ivals (.int argindex) with
               | .error e => .error e
               | .ok its => if its.isEmpty then iaTail cc f name else chainE its)
          | none => iaTail cc f name
    | none => iaTail cc f name

/-- `infer_subscript` (src/inference.py lines 291-311): with exactly one
subscript, take the first inferred value of the index; YES yields YES;
reading `.value` off a non-`Const` index or subscripting a node without
`getitem` raises `InferenceError` (via `AttributeError`);
`IndexError`/`TypeError` from the extraction yield YES; otherwise the
extracted node is inferred.  With any other number of subscripts the
rule raises `InferenceError`. -/
def inferSubscript (expr : SNode) (subs : List SNode) : Except Err (List IVal) :=
  match subs with
  | [sub] =>
    (match inferSN sub with
     | .error e => .error e
     | .ok ivals =>
       match ivals.head? with
       | none => .error .inferenceError
       | some .yes => .ok [.yes]
       | some (.node idxn) =>
         match constValue idxn with
         | none => .error .inferenceError
         | some v =>
           match getitemSN expr v with
           | .ok assigned => inferSN assigned
           | .error .attrErr => .error .inferenceError
           | .error .indexErr => .ok [.yes]
           | .error .typeErr => .ok [.yes]
           | .error e => .error e)
  | _ => .error .inferenceError

/-- Right-hand sides of name bindings in the name-inference model: a
literal, or a reference to another name (`x = y`). -/
inductive NExpr where
  | constE (v : Int)
  | nameRef (s : String)

/-- A frame's symbol table, one entry per binding in source order
(`x = x` is `[("x", nameRef "x")]`). -/
abbrev Env := List (String × NExpr)

/-- The `lookup` result for a name: every binding recorded for it, in
order. -/
def bindingsOf (env : Env) (s : String) : List NExpr :=
  (env.filter (fun b => decide (b.1 = s))).map (fun b => b.2)

/-- Inferred values of the name-inference model. -/
inductive NVal where
  | yes
  | constV (v : Int)
deriving DecidableEq, Repr

/-- Cycle-guard measure: how many of the environment's names are not yet
on the in-progress inference path. -/
def freeCount (env : Env) (path : List String) : Nat :=
  ((env.map Prod.fst).toFinset \ path.toFinset).card

mutual
/-- Modelled from the spec: the cycle guard (`path_wrapper` /
`InferenceContext.path`) is imported by `src/inference.py` from
`logilab.astng` but is not under `src/`; per spec §4.5 the guard
short-circuits a re-entered (node, lookup-name) pair to the Unknown
sentinel as a yielded value.  The rest is `infer_name`
(src/inference.py lines 185-193): look the name up; if no binding
survives raise `UnresolvableName`; otherwise infer each binding and
union the results (`_infer_stmts`). -/
def inferE (env : Env) (path : List String) : NExpr → Except Err (List NVal)
  | .constE v => .ok [.constV v]
  | .nameRef s =>
    if s ∈ path then .ok [.yes]
    else
      if h : (bindingsOf env s).isEmpty then .error .unresolvableName
      else inferL env (s :: path) (bindingsOf env s)
termination_by e => (freeCount env path, 0)
decreasing_by
  apply Prod.Lex.left
  rename_i hs
  have hmem : s ∈ env.map Prod.fst := by
    rcases List.exists_mem_of_ne_nil _ (by simpa [List.isEmpty_iff] using h) with ⟨e', he'⟩
    rcases List.mem_map.1 (by exact he') with ⟨b, hb, _⟩
    have hb' := List.mem_filter.1 hb
    exact (of_decide_eq_true hb'.2) ▸ List.mem_map_of_mem Prod.fst hb'.1
  have hsub : ((env.map Prod.fst).toFinset \ (s :: path).toFinset)
      ⊂ ((env.map Prod.fst).toFinset \ path.toFinset) := by
    rw [List.toFinset_cons]
    refine (Finset.ssubset_iff_of_subset
      (Finset.sdiff_subset_sdiff (Finset.Subset.refl _) (Finset.subset_insert _ _))).2 ?_
    refine ⟨s, Finset.mem_sdiff.2 ⟨List.mem_toFinset.2 hmem, by
      simpa [List.mem_toFinset] using hs⟩, ?_⟩
    simp [Finset.mem_sdiff]
  exact Finset.card_lt_card hsub

/-- Union of the inferred values of a list of bindings, errors
propagating. -/
def inferL (env : Env) (path : List String) : List NExpr → Except Err (List NVal)
  | [] => .ok []
  | e :: rest =>
    match inferE env path e with
    | .error err => .error err
    | .ok l =>
      match inferL env path rest with
      | .error err => .error err
      | .ok r => .ok (l ++ r)
termination_by l => (freeCount env path, l.length + 1)
decreasing_by
  · apply Prod.Lex.right
    simp only [List.length_cons]
    omega
  · apply Prod.Lex.right
    simp only [List.length_cons]
    omega
end

/-- The `_astroid_fields` slot a child node lives in.  `locate_child`
returns the field name together with the field's node-or-list object, so
two children compare as "the same locate_child result" exactly when they
sit in the same field of the same parent. -/
inductive CField where
  | ftest
  | fbody
  | fhandlers
  | forelse
  | ftarget
  | fiter
  | ftargets
  | fvalue
  | fother
deriving DecidableEq, Fintype, Repr

/-- Node kinds of `node_classes.py` needed by `are_exclusive` and
`_filter_stmts`. -/
inductive Kind where
  | kModule
  | kIf
  | kTryExcept
  | kExceptHandler
  | kFor
  | kAssign
  | kAssignName
  | kDelName
  | kName
  | kConst
  | kPass
  | kPrint
  | kCompr
  | kOther
deriving DecidableEq, Fintype, Repr

/-- Per-node data: its kind, its `fromlineno`, and — for exception
handlers — the `Name`s appearing in the handler's `type` (`none` for a
bare `except:`). -/
structure NData where
  kind : Kind
  lineno : Nat
  catches : Option (List String)
deriving DecidableEq

/-- A syntax tree: node data plus the ordered children, each tagged with
the field it occupies.  Nodes are addressed by child-index paths from
the root, so node identity is path equality. -/
inductive ATree where
  | node (d : NData) (children : List (CField × ATree))

/-- A node address: the child indices from the root. -/
abbrev NPath := List Nat

/-- Resolve a path to its subtree. -/
def nodeAt : ATree → NPath → Option ATree
  | t, [] => some t
  | .node _ cs, i :: rest =>
    match cs.get? i with
    | some c => nodeAt c.2 rest
    | none => none

/-- The kind of the node at a path. -/
def kindAt (t : ATree) (p : NPath) : Option Kind :=
  match nodeAt t p with
  | some (.node d _) => some d.kind
  | none => none

/-- `fromlineno` of the node at a path (0 when the path is invalid). -/
def linenoAtD (t : ATree) (p : NPath) : Nat :=
  match nodeAt t p with
  | some (.node d _) => d.lineno
  | none => 0

/-- The field tag of child number `s` of the node at `q`: the
`locate_child` attribute name. -/
def fieldTagAt (t : ATree) (q : NPath) (s : Nat) : Option CField :=
  match nodeAt t q with
  | some (.node _ cs) => (cs.get? s).map (fun c => c.1)
  | none => none

/-- `ExceptHandler.catch` (node_classes.py lines 805-810): true when the
handler has no `type`, when no exception names were given, or when one
of the `Name`s in the handler's `type` is among the given names. -/
def catchB (t : ATree) (hp : NPath) (exc : Option (List String)) : Bool :=
  match nodeAt t hp with
  | some (.node d _) =>
    match d.catches, exc with
    | none, _ => true
    | _, none => true
    | some ns, some es => ns.any (fun n => es.contains n)
  | none => false

/-- The strict ancestors of a path, nearest first — the order in which
`are_exclusive` climbs `stmt2.parent, stmt2.parent.parent, …`. -/
def ancPaths (p : NPath) : List NPath :=
  ((List.range p.length).reverse).map (fun k => p.take k)

/-- The climb of `are_exclusive` (node_classes.py lines 80-84): walk
`stmt2`'s ancestors from the nearest and return the first that is also
an ancestor of `stmt1` (the indexed `stmt1_parents`). -/
def findCommon (p1 p2 : NPath) : Option NPath :=
  (ancPaths p2).find? (fun q => decide (q ∈ ancPaths p1))

/-- The branch test of `are_exclusive` at the common ancestor
(node_classes.py lines 85-104), over the data the code consults:
the ancestor's kind; the `locate_child` field of the child leading to
each statement (`f1` toward `stmt1` via `children[node]`, `f2` toward
`stmt2` via `previous`); each side's `catch` result; whether the two
children are the same node; and whether `exceptions` is unset. -/
def branchCore (k : Kind) (f1 f2 : Option CField) (c1 c2 : Bool)
    (sameChild : Bool) (excNone : Bool) : Bool :=
  if k = Kind.kIf ∧ excNone = true then
    decide (f2 ≠ f1)
  else if k = Kind.kTryExcept then
    if f1 ≠ f2 then
      decide ((f2 = some .fbody ∧ f1 = some .fhandlers ∧ c1 = true) ∨
              (f2 = some .fhandlers ∧ f1 = some .fbody ∧ c2 = true) ∨
              (f2 = some .fhandlers ∧ f1 = some .forelse) ∨
              (f2 = some .forelse ∧ f1 = some .fhandlers))
    else if f2 = some CField.fhandlers ∧ f1 = some CField.fhandlers then
      !sameChild
    else
      false
  else
    false

/-- Evaluate the branch test at ancestor `q` with child steps
`s1` (toward `stmt1`) and `s2` (toward `stmt2`). -/
def branchEval (t : ATree) (q : NPath) (s1 s2 : Nat) (exc : Option (List String)) : Bool :=
  match kindAt t q with
  | some k =>
    branchCore k (fieldTagAt t q s1) (fieldTagAt t q s2)
      (catchB t (q ++ [s1]) exc) (catchB t (q ++ [s2]) exc)
      (s1 == s2) exc.isNone
  | none => false

/-- `are_exclusive(stmt1, stmt2, exceptions)` (node_classes.py lines
57-107) on path-addressed statements: find the first common ancestor by
climbing; with none, or with a common ancestor that is neither an `If`
(with `exceptions` unset) nor a `TryExcept`, return false; otherwise
decide by the branch test. -/
def areExclusive (t : ATree) (p1 p2 : NPath) (exc : Option (List String)) : Bool :=
  match findCommon p1 p2 with
  | none => false
  | some q =>
    branchEval t q ((p1.get? q.length).getD 0) ((p2.get? q.length).getD 0) exc

/-- Which kinds are `Statement` subclasses in node_classes.py. -/
def isStatementKind : Kind → Bool
  | .kAssign => true
  | .kFor => true
  | .kIf => true
  | .kTryExcept => true
  | .kExceptHandler => true
  | .kPass => true
  | .kPrint => true
  | _ => false

/-- `statement()`: the node itself if it is a statement, else the
nearest statement ancestor (fuel-driven climb along `dropLast`). -/
def statementAux (t : ATree) : Nat → NPath → Option NPath
  | 0, _ => none
  | fuel + 1, p =>
    match kindAt t p with
    | some k =>
      if isStatementKind k then some p
      else if p = [] then none
      else statementAux t fuel p.dropLast
    | none => none

/-- `node.statement()` on a path. -/
def statementOf (t : ATree) (p : NPath) : Option NPath :=
  statementAux t (p.length + 1) p

/-- Which kinds own a scope (`frame()`); the claims only need module
frames. -/
def isFrameKind : Kind → Bool
  | .kModule => true
  | _ => false

/-- `node.frame()`: nearest frame ancestor-or-self. -/
def frameAux (t : ATree) : Nat → NPath → Option NPath
  | 0, _ => none
  | fuel + 1, p =>
    match kindAt t p with
    | some k =>
      if isFrameKind k then some p
      else if p = [] then none
      else frameAux t fuel p.dropLast
    | none => none

/-- `node.frame()` with the root as fallback. -/
def frameOfD (t : ATree) (p : NPath) : NPath :=
  (frameAux t (p.length + 1) p).getD []

/-- Kinds whose `assign_type()` returns the node itself
(`AssignTypeMixin` subclasses: `Assign`, `For`, `ExceptHandler`, … and
`Comprehension`). -/
def assignSelfKind : Kind → Bool
  | .kAssign => true
  | .kFor => true
  | .kExceptHandler => true
  | .kCompr => true
  | _ => false

/-- Modelled from the spec: `astroid.mixins` is not under `src/`.
`assign_type()` on a binding node (`AssignName`/`DelName`, which are
`ParentAssignTypeMixin`) delegates to the parent until a node that is
its own assignment type (`AssignTypeMixin`) is reached; the class
hierarchy is declared in node_classes.py, only the two one-line method
bodies are missing. -/
def assignTypeAux (t : ATree) : Nat → NPath → NPath
  | 0, p => p
  | fuel + 1, p =>
    match kindAt t p with
    | some k =>
      if assignSelfKind k then p
      else if p = [] then p
      else assignTypeAux t fuel p.dropLast
    | none => p

/-- `node.assign_type()` on a path. -/
def assignTypeOf (t : ATree) (p : NPath) : NPath :=
  assignTypeAux t (p.length + 1) p

/-- `optional_assign` of an assignment-type node: `For` (node_classes.py
line 849) and `Comprehension` (line 616) set it true; the `NodeNG`
default is false (modelled — `astroid.bases` is not under `src/`). -/
def optionalAssignB (t : ATree) (p : NPath) : Bool :=
  match kindAt t p with
  | some .kFor => true
  | some .kCompr => true
  | _ => false

/-- Modelled from the spec: `NodeNG.has_base` (in the absent
`astroid.bases`) is false for every node that is not a class definition
with a matching base; no class candidates appear in the modelled
trees. -/
def hasBaseB (_ : ATree) (_ : NPath) (_ : NPath) : Bool :=
  false

/-- `parent_of`: the first path is a strict ancestor of the second. -/
def isProperAncestor (q p : NPath) : Bool :=
  decide (q.length < p.length ∧ p.take q.length = q)

/-- `assign_type._get_filtered_stmts(lookup_node, node, _stmts, mystmt)`:
`Comprehension`'s hook is node_classes.py lines 620-632; the
`AssignTypeMixin` hook (absent `astroid.mixins`, modelled after the same
pattern) keeps only the current node when the binding's statement is the
lookup statement, else passes the accumulator through. -/
def getFiltered (t : ATree) (aPath selfP nodeP : NPath) (stmts : List NPath)
    (mystmt : NPath) : List NPath × Bool :=
  match kindAt t aPath with
  | some .kCompr =>
    if aPath = mystmt then
      if kindAt t selfP = some .kConst ∨ kindAt t selfP = some .kName then
        ([selfP], true)
      else (stmts, false)
    else if (statementOf t aPath).getD [] = mystmt then ([nodeP], true)
    else (stmts, false)
  | some k =>
    if assignSelfKind k then
      if (statementOf t aPath).getD [] = mystmt then ([nodeP], true)
      else (stmts, false)
    else (stmts, false)
  | none => (stmts, false)

/-- The candidate loop of `LookupMixIn._filter_stmts` (node_classes.py
lines 180-254), carrying `_stmts` and `_stmt_parents`:
line-number break; `has_base` break; the `_get_filtered_stmts` hook with
its `done` break; the optional-assignment reset for loop variables
enclosing the lookup; the `pindex` block (skip a candidate whose
predecessor's assignment type encloses its own; delete a same-parent
predecessor that is neither optional nor exclusive); the
`AssignName`-clear and `DelName`-clear; and the final
appends-unless-exclusive. -/
def filterLoop (t : ATree) (selfP mystmt : NPath) (mylineno : Int) :
    List NPath → List NPath → List NPath → List NPath
  | [], acc, _ => acc
  | nodeP :: rest, acc, accPar =>
    let stmt := (statementOf t nodeP).getD []
    if mylineno > 0 ∧ (linenoAtD t stmt : Int) > mylineno then acc
    else
      let aType := assignTypeOf t nodeP
      if hasBaseB t nodeP selfP then acc
      else
        let hres := getFiltered t aType selfP nodeP acc mystmt
        if hres.2 then hres.1
        else
          let acc1 := hres.1
          let optional := optionalAssignB t aType
          if optional ∧ isProperAncestor aType selfP then
            filterLoop t selfP mystmt mylineno rest [nodeP] [stmt.dropLast]
          else
            let afterPindex : List NPath × List NPath × Bool :=
              match accPar.findIdx? (fun pp => pp = stmt.dropLast) with
              | some pindex =>
                if isProperAncestor (assignTypeOf t ((acc1.get? pindex).getD [])) aType then
                  (acc1, accPar, true)
                else if ¬(optional ∨ areExclusive t ((acc1.get? pindex).getD []) nodeP none = true) then
                  (acc1.eraseIdx pindex, accPar.eraseIdx pindex, false)
                else
                  (acc1, accPar, false)
              | none => (acc1, accPar, false)
            if afterPindex.2.2 then
              filterLoop t selfP mystmt mylineno rest afterPindex.1 afterPindex.2.1
            else
              let a := afterPindex.1
              let ap := afterPindex.2.1
              match kindAt t nodeP with
              | some .kAssignName =>
                let cleared := ¬optional ∧ stmt.dropLast = mystmt.dropLast
                let a2 := if cleared then [] else a
                let ap2 := if cleared then [] else ap
                if areExclusive t selfP nodeP none then
                  filterLoop t selfP mystmt mylineno rest a2 ap2
                else
                  filterLoop t selfP mystmt mylineno rest (a2 ++ [nodeP]) (ap2 ++ [stmt.dropLast])
              | some .kDelName =>
                filterLoop t selfP mystmt mylineno rest [] []
              | _ =>
                if areExclusive t selfP nodeP none then
                  filterLoop t selfP mystmt mylineno rest a ap
                else
                  filterLoop t selfP mystmt mylineno rest (a ++ [nodeP]) (ap ++ [stmt.dropLast])

/-- `LookupMixIn._filter_stmts(self, stmts, frame, offset)`
(node_classes.py lines 137-254): compute `myframe` (with the `offset ==
-1` base-class rule and the Pylint-#295 adjustment when the lookup's
statement is its own frame); return the candidates unfiltered when the
frames differ or the lookup is the frame; otherwise set the reference
line and run the candidate loop. -/
def filterStmts (t : ATree) (selfP : NPath) (stmts : List NPath) (frameP : NPath)
    (offset : Int) : List NPath :=
  let myframe : NPath :=
    if offset = -1 then frameOfD t (frameOfD t selfP).dropLast
    else
      let fr := frameOfD t selfP
      if (statementOf t selfP).getD [] = fr ∧ fr ≠ [] then frameOfD t fr.dropLast
      else fr
  if ¬(myframe = frameP) ∨ selfP = frameP then stmts
  else
    let mystmt := (statementOf t selfP).getD []
    let mylineno : Int :=
      if myframe = frameP then (linenoAtD t mystmt : Int) + offset else 0
    filterLoop t selfP mystmt mylineno stmts [] []

/-- A childless tree node with no handler type. -/
def leafD (k : Kind) (ln : Nat) : ATree :=
  .node ⟨k, ln, none⟩ []

/-- A tree node with children and no handler type. -/
def nd (k : Kind) (ln : Nat) (cs : List (CField × ATree)) : ATree :=
  .node ⟨k, ln, none⟩ cs

/-- The module
```
x = 1            # binding b1 at [0,0]
for x in y:      # binding b2 at [1,0]
    pass
x = 2            # binding b3 at [2,0]
if c:
    print x      # lookup Name at [3,1,0]
```
used to probe `_filter_stmts` re-application. -/
def ex9 : ATree :=
  nd .kModule 0
    [(.fbody, nd .kAssign 1 [(.ftargets, leafD .kAssignName 1), (.fvalue, leafD .kConst 1)]),
     (.fbody, nd .kFor 2
       [(.ftarget, leafD .kAssignName 2), (.fiter, leafD .kName 2), (.fbody, leafD .kPass 3)]),
     (.fbody, nd .kAssign 4 [(.ftargets, leafD .kAssignName 4), (.fvalue, leafD .kConst 4)]),
     (.fbody, nd .kIf 5
       [(.ftest, leafD .kName 5), (.fbody, nd .kPrint 6 [(.fvalue, leafD .kName 6)])])]

/-- The lookup node of `ex9` (the `x` in `print x`). -/
def selfP9 : NPath := [3, 1, 0]

/-- The candidate bindings of `x` in `ex9`, in source order. -/
def cands9 : List NPath := [[0, 0], [1, 0], [2, 0]]

/-- `try: risky() except ValueError: x = 1 else: x = 2` — the handler
carries `catches = ["ValueError"]`; the two `x` bindings are at
`[1,0,0]` (handler body) and `[2,0]` (else clause). -/
def ex6 : ATree :=
  nd .kTryExcept 1
    [(.fbody, leafD .kPass 1),
     (.fhandlers, .node ⟨.kExceptHandler, 2, some ["ValueError"]⟩
       [(.fbody, nd .kAssign 2 [(.ftargets, leafD .kAssignName 2), (.fvalue, leafD .kConst 2)])]),
     (.forelse, nd .kAssign 3 [(.ftargets, leafD .kAssignName 3), (.fvalue, leafD .kConst 3)])]

/-- The enclosing class `A` of the example method. -/
def clsA : SNode := .classN "A"

/-- `def m(self, y=5)` inside class `A`, `funcnode.type == 'method'`. -/
def mFunc : FuncNode :=
  { args := { args := ["self", "y"], defaults := [.const (.int 5)], kwonlyargs := [],
              kw_defaults := [], vararg := none, kwarg := none },
    ftype := .method, parentFrame := clsA }

/-- The inference context of a bound call `A().m(...)`: `infer_getattr`
has set `boundnode` to the instance. -/
def ctxA : InfCtx := ⟨some (.instN clsA)⟩

/-- Call context of `A().m()`. -/
def ccEmpty : CallCtx := mkCallContext [] none none

/-- Call context of `A().m(10)`. -/
def ccPos10 : CallCtx := mkCallContext [.pos (.const (.int 10))] none none

/-- Call context of `A().m(y=10)`. -/
def ccKw10 : CallCtx := mkCallContext [.kw "y" (.const (.int 10))] none none

/-- Call context of `A().m(10, y=10)` — a positional argument occupying
`y`'s index alongside the keyword. -/
def ccPosKw : CallCtx :=
  mkCallContext [.pos (.const (.int 10)), .kw "y" (.const (.int 99))] none none

/-- `def m2(self, z)` inside class `A` — no default for `z`. -/
def m2Func : FuncNode :=
  { args := { args := ["self", "z"], defaults := [], kwonlyargs := [],
              kw_defaults := [], vararg := none, kwarg := none },
    ftype := .method, parentFrame := clsA }

/-- `def g(*args, **kw)` — only catch-all parameters. -/
def gFunc : FuncNode :=
  { args := { args := [], defaults := [], kwonlyargs := [],
              kw_defaults := [], vararg := some "args", kwarg := some "kw" },
    ftype := .function, parentFrame := clsA }

/-- `def h(p=7)` called as `h(**{"q": 1})`: the double-star dict lacks
`"p"`, so its `Dict.getitem` raises `IndexError`, which the call site
catches before falling back to the default. -/
def hFunc : FuncNode :=
  { args := { args := ["p"], defaults := [.const (.int 7)], kwonlyargs := [],
              kw_defaults := [], vararg := none, kwarg := none },
    ftype := .function, parentFrame := clsA }

/-- Call context of `h(**{"q": 1})`. -/
def ccDstar : CallCtx :=
  mkCallContext [] none (some (.dictN [(.const (.str "q"), .const (.int 1))]))

/-- An unbound inference context. -/
def ctx0 : InfCtx := ⟨none⟩

/-- `a = b; b = a`, the mutually-referential environment. -/
def abEnv : Env := [("a", .nameRef "b"), ("b", .nameRef "a")]

/-- `x = x`, the self-referential environment. -/
def xxEnv : Env := [("x", .nameRef "x")]

/-- Length of the longest common leading segment of two paths (analysis
device for the ancestor climb). -/
def lcpLen : NPath → NPath → Nat
  | [], _ => 0
  | _ :: _, [] => 0
  | a :: as, b :: bs => if a = b then lcpLen as bs + 1 else 0

theorem lcpLen_comm : ∀ p1 p2 : NPath, lcpLen p1 p2 = lcpLen p2 p1 := by
  intro p1
  induction p1 with
  | nil => intro p2; cases p2 <;> rfl
  | cons a as ih =>
    intro p2
    cases p2 with
    | nil => rfl
    | cons b bs =>
      by_cases h : a = b
      · subst h; simp [lcpLen, ih]
      · simp [lcpLen, h, Ne.symm h]

theorem take_eq_of_le_lcp : ∀ (p1 p2 : NPath) (k : Nat), k ≤ lcpLen p1 p2 →
    p1.take k = p2.take k := by
  intro p1
  induction p1 with
  | nil =>
    intro p2 k hk
    cases p2 <;> simp_all [lcpLen, Nat.le_zero]
  | cons a as ih =>
    intro p2 k hk
    cases p2 with
    | nil => simp_all [lcpLen, Nat.le_zero]
    | cons b bs =>
      by_cases hab : a = b
      · subst hab
        cases k with
        | zero => simp
        | succ k' =>
          have hk' : k' ≤ lcpLen as bs := by
            simp [lcpLen] at hk
            omega
          simp [List.take_succ_cons, ih bs k' hk']
      · simp only [lcpLen, if_neg hab] at hk
        interval_cases k
        simp

theorem le_lcp_of_take_eq : ∀ (k : Nat) (p1 p2 : NPath), k ≤ p1.length → k ≤ p2.length →
    p1.take k = p2.take k → k ≤ lcpLen p1 p2 := by
  intro k
  induction k with
  | zero => intro _ _ _ _ _; omega
  | succ k' ih =>
    intro p1 p2 h1 h2 heq
    cases p1 with
    | nil => simp at h1
    | cons a as =>
      cases p2 with
      | nil => simp at h2
      | cons b bs =>
        simp only [List.take_succ_cons, List.cons.injEq] at heq
        have hab : a = b := heq.1
        subst hab
        have := ih as bs (by simpa using h1) (by simpa using h2) heq.2
        simp [lcpLen]
        omega

theorem mem_ancPaths {p q : NPath} : q ∈ ancPaths p ↔ ∃ k, k < p.length ∧ p.take k = q := by
  simp [ancPaths]

theorem findDesc {α : Type} (f : Nat → α) (pr : α → Bool) :
    ∀ n K, K < n → pr (f K) = true →
      (∀ j, K < j → j < n → pr (f j) = false) →
      ((List.range n).reverse.map f).find? pr = some (f K) := by
  intro n
  induction n with
  | zero => intro K hK _ _; exact absurd hK (Nat.not_lt_zero K)
  | succ m ih =>
    intro K hK hpK hfail
    have hrev : (List.range (m + 1)).reverse = m :: (List.range m).reverse := by
      rw [List.range_succ, List.reverse_append, List.reverse_singleton]
      rfl
    rw [hrev, List.map_cons]
    by_cases hKm : K = m
    · subst hKm
      exact List.find?_cons_of_pos _ hpK
    · have hm : pr (f m) = false := hfail m (by omega) (by omega)
      rw [List.find?_cons_of_neg _ (by simp [hm])]
      exact ih K (by omega) hpK (fun j hj1 hj2 => hfail j hj1 (by omega))

theorem findCommon_nil_left (p2 : NPath) : findCommon [] p2 = none := by
  rw [findCommon]
  apply List.find?_eq_none.2
  intro q hq
  simp [ancPaths] at hq ⊢

theorem findCommon_nil_right (p1 : NPath) : findCommon p1 [] = none := by
  rfl

theorem findCommon_eq (p1 p2 : NPath) (h1 : p1 ≠ []) (h2 : p2 ≠ []) :
    findCommon p1 p2 =
      some (p2.take (min (lcpLen p1 p2) (min (p1.length - 1) (p2.length - 1)))) := by
  have hl1 : 0 < p1.length := List.length_pos.2 h1
  have hl2 : 0 < p2.length := List.length_pos.2 h2
  set K := min (lcpLen p1 p2) (min (p1.length - 1) (p2.length - 1)) with hKdef
  have hKle1 : K ≤ p1.length - 1 := le_trans (min_le_right _ _) (min_le_left _ _)
  have hKle2 : K ≤ p2.length - 1 := le_trans (min_le_right _ _) (min_le_right _ _)
  have hKlcp : K ≤ lcpLen p1 p2 := min_le_left _ _
  show (ancPaths p2).find? (fun q => decide (q ∈ ancPaths p1)) = _
  rw [ancPaths]
  refine findDesc (fun k => p2.take k) (fun q => decide (q ∈ ancPaths p1))
    p2.length K ?_ ?_ ?_
  · omega
  · show decide (p2.take K ∈ ancPaths p1) = true
    refine decide_eq_true (mem_ancPaths.2 ⟨K, by omega, ?_⟩)
    exact take_eq_of_le_lcp p1 p2 K hKlcp
  · intro j hKj hjn
    show decide (p2.take j ∈ ancPaths p1) = false
    refine decide_eq_false (fun hmem => ?_)
    rcases mem_ancPaths.1 hmem with ⟨m, hm, hEq⟩
    have hlen : (p1.take m).length = (p2.take j).length := by rw [hEq]
    rw [List.length_take, List.length_take] at hlen
    have hmj : m = j := by omega
    subst hmj
    have hle : m ≤ lcpLen p1 p2 :=
      le_lcp_of_take_eq m p1 p2 (by omega) (by omega) hEq
    omega

theorem branchCore_swap : ∀ (k : Kind) (f1 f2 : Option CField) (c1 c2 sc en : Bool),
    branchCore k f1 f2 c1 c2 sc en = branchCore k f2 f1 c2 c1 sc en := by
  decide

theorem branchEval_swap (t : ATree) (q : NPath) (s1 s2 : Nat) (exc : Option (List String)) :
    branchEval t q s1 s2 exc = branchEval t q s2 s1 exc := by
  rw [branchEval, branchEval]
  cases hk : kindAt t q with
  | none => rfl
  | some k =>
    have hbe : (s1 == s2) = (s2 == s1) := by
      by_cases h : s1 = s2
      · simp [h]
      · simp [h, Ne.symm h]
    rw [hbe]
    exact branchCore_swap k _ _ _ _ _ _

theorem areExclusive_found (t : ATree) (p1 p2 : NPath) (exc : Option (List String))
    (q : NPath) (h : findCommon p1 p2 = some q) :
    areExclusive t p1 p2 exc
      = branchEval t q ((p1.get? q.length).getD 0) ((p2.get? q.length).getD 0) exc := by
  rw [areExclusive, h]

theorem areExclusive_notFound (t : ATree) (p1 p2 : NPath) (exc : Option (List String))
    (h : findCommon p1 p2 = none) : areExclusive t p1 p2 exc = false := by
  rw [areExclusive, h]

/-- C5: for every pair of statement nodes of one tree and every value of
the exception-names argument, `are_exclusive(a, b)` equals
`are_exclusive(b, a)`: the ancestor climb finds the same common ancestor
from either side, and the branch test at that ancestor is invariant
under swapping the two descent children. -/
theorem c5_areExclusive_symm (t : ATree) (p1 p2 : NPath) (exc : Option (List String)) :
    areExclusive t p1 p2 exc = areExclusive t p2 p1 exc := by
  by_cases h1 : p1 = []
  · subst h1
    rw [areExclusive_notFound t [] p2 exc (findCommon_nil_left p2),
      areExclusive_notFound t p2 [] exc (findCommon_nil_right p2)]
  by_cases h2 : p2 = []
  · subst h2
    rw [areExclusive_notFound t p1 [] exc (findCommon_nil_right p1),
      areExclusive_notFound t [] p1 exc (findCommon_nil_left p1)]
  have hl1 : 0 < p1.length := List.length_pos.2 h1
  have hl2 : 0 < p2.length := List.length_pos.2 h2
  have hKc : min (lcpLen p2 p1) (min (p2.length - 1) (p1.length - 1))
      = min (lcpLen p1 p2) (min (p1.length - 1) (p2.length - 1)) := by
    rw [lcpLen_comm, min_comm (p2.length - 1)]
  set K := min (lcpLen p1 p2) (min (p1.length - 1) (p2.length - 1)) with hKdef
  have hKlcp : K ≤ lcpLen p1 p2 := min_le_left _ _
  have hKle1 : K ≤ p1.length - 1 := le_trans (min_le_right _ _) (min_le_left _ _)
  have hKle2 : K ≤ p2.length - 1 := le_trans (min_le_right _ _) (min_le_right _ _)
  have htake : p1.take K = p2.take K := take_eq_of_le_lcp p1 p2 K hKlcp
  have hfc1 : findCommon p1 p2 = some (p2.take K) := findCommon_eq p1 p2 h1 h2
  have hfc2 : findCommon p2 p1 = some (p2.take K) := by
    rw [findCommon_eq p2 p1 h2 h1, hKc, ← htake]
  rw [areExclusive_found t p1 p2 exc _ hfc1, areExclusive_found t p2 p1 exc _ hfc2]
  have hlen : (p2.take K).length = K := by
    rw [List.length_take]
    omega
  rw [hlen]
  exact branchEval_swap t (p2.take K) _ _ exc

/-- C6: at a try/except common ancestor — body-vs-handler statements are
exclusive exactly when that handler catches one of the given exception
names (`catch` is unconditionally true when none are given or the
handler is bare); handler-vs-else statements are always exclusive;
statements under distinct handler children are exclusive while two under
the same handler child are not (`!(s1 == s2)`); at a common ancestor
that is neither `If` nor `TryExcept` — sequential blocks, loop bodies, a
shared handler — nothing is exclusive; and on
`try: risky() except ValueError: x = 1 else: x = 2` the two `x` bindings
are exclusive. -/
theorem c6_tryexcept_exclusivity :
    (∀ (t : ATree) (p1 p2 : NPath) (exc : Option (List String)) (q : NPath) (s1 s2 : Nat),
      findCommon p1 p2 = some q →
      p1.get? q.length = some s1 → p2.get? q.length = some s2 →
      kindAt t q = some .kTryExcept →
      ((fieldTagAt t q s1 = some .fhandlers → fieldTagAt t q s2 = some .fbody →
          areExclusive t p1 p2 exc = catchB t (q ++ [s1]) exc)
        ∧ (fieldTagAt t q s1 = some .fbody → fieldTagAt t q s2 = some .fhandlers →
          areExclusive t p1 p2 exc = catchB t (q ++ [s2]) exc)
        ∧ (fieldTagAt t q s1 = some .fhandlers → fieldTagAt t q s2 = some .forelse →
          areExclusive t p1 p2 exc = true)
        ∧ (fieldTagAt t q s1 = some .forelse → fieldTagAt t q s2 = some .fhandlers →
          areExclusive t p1 p2 exc = true)
        ∧ (fieldTagAt t q s1 = some .fhandlers → fieldTagAt t q s2 = some .fhandlers →
          areExclusive t p1 p2 exc = !(s1 == s2))))
    ∧ (∀ (t : ATree) (p1 p2 : NPath) (exc : Option (List String)) (q : NPath) (k : Kind),
      findCommon p1 p2 = some q → kindAt t q = some k →
      k ≠ .kIf → k ≠ .kTryExcept → areExclusive t p1 p2 exc = false)
    ∧ areExclusive ex6 [1, 0, 0] [2, 0] none = true := by
  refine ⟨?_, ?_, rfl⟩
  · intro t p1 p2 exc q s1 s2 hf h1 h2 hk
    refine ⟨?_, ?_, ?_, ?_, ?_⟩ <;> intro hf1 hf2 <;>
      rw [areExclusive_found t p1 p2 exc q hf, h1, h2] <;>
      simp only [Option.getD_some] <;>
      rw [branchEval, hk] <;>
      simp [branchCore, hf1, hf2]
  · intro t p1 p2 exc q k hf hk hki hkt
    rw [areExclusive_found t p1 p2 exc q hf]
    rw [branchEval, hk]
    simp [branchCore, hki, hkt]

/-- Witness for C6: the handler-vs-else rule applied to the concrete
`try/except ValueError/else` tree. -/
theorem c6_tryexcept_exclusivity_witness :
    areExclusive ex6 [1, 0, 0] [2, 0] none = true :=
  (c6_tryexcept_exclusivity.1 ex6 [1, 0, 0] [2, 0] none [] 1 2
    rfl rfl rfl rfl).2.2.1 rfl rfl

/-- C1: `infer` terminates on every input — `inferE` is a total function
(definable only with its termination proof, and trivially producing a
result on every input) — and a re-entered (name, path-signature) pair
short-circuits to the Unknown sentinel as a yielded value: in
particular, on `a = b; b = a` inferring `a` yields exactly `[Unknown]`,
and on `x = x` inferring `x` yields exactly `[Unknown]` — never a raised
error, never a loop.  (Spec-modelled guard: `path_wrapper` is not under
`src/`.) -/
theorem c1_infer_total_cycles_unknown :
    (∀ (env : Env) (path : List String) (e : NExpr), ∃ r, inferE env path e = r)
    ∧ (∀ (env : Env) (path : List String) (s : String), s ∈ path →
      inferE env path (.nameRef s) = .ok [.yes])
    ∧ inferE abEnv [] (.nameRef "a") = .ok [.yes]
    ∧ inferE xxEnv [] (.nameRef "x") = .ok [.yes] := by
  refine ⟨fun env path e => ⟨_, rfl⟩, fun env path s hs => ?_, ?_, ?_⟩
  · rw [inferE]
    simp [hs]
  · simp [abEnv, inferE, inferL, bindingsOf]
  · simp [xxEnv, inferE, inferL, bindingsOf]

/-- Witness for C1: the guard fires on a concrete re-entered name. -/
theorem c1_infer_total_cycles_unknown_witness :
    inferE [] ["x"] (.nameRef "x") = .ok [.yes] :=
  c1_infer_total_cycles_unknown.2.1 [] ["x"] "x" (by simp)

/-- C4: when name lookup produces no surviving candidate binding (and
the cycle guard is not already short-circuiting the name), inference of
the name reference raises `UnresolvableName` — it does not return an
empty successful sequence. -/
theorem c4_unresolvable_name (env : Env) (path : List String) (s : String)
    (hs : ¬ s ∈ path) (hb : bindingsOf env s = []) :
    inferE env path (.nameRef s) = .error .unresolvableName
    ∧ ∀ l, inferE env path (.nameRef s) ≠ .ok l := by
  have h : inferE env path (.nameRef s) = .error .unresolvableName := by
    rw [inferE]
    simp [hs, hb]
  exact ⟨h, fun l hl => by rw [h] at hl; exact Except.noConfusion hl⟩

/-- Witness for C4: a name with no binding at all. -/
theorem c4_unresolvable_name_witness :
    inferE [] [] (.nameRef "q") = .error .unresolvableName :=
  (c4_unresolvable_name [] [] "q" (by simp) rfl).1

/-- C2 counterexample: for `m(self, y=5)` called as `A().m(10)` — call
context `[10]`, bound instance — `infer_argument` resolves `y` to the
default 5, not to 10: `y`'s declared index is 1 while the call supplies
one positional at index 0, and the bound receiver shifts nothing. -/
theorem c2_claim_counterexample :
    inferArgument ccPos10 mFunc "y" ctxA = .ok [.node (.const (.int 5))]
    ∧ inferArgument ccPos10 mFunc "y" ctxA ≠ .ok [.node (.const (.int 10))] := by
  refine ⟨rfl, ?_⟩
  intro h
  rw [show inferArgument ccPos10 mFunc "y" ctxA = .ok [.node (.const (.int 5))] from rfl] at h
  simp at h

/-- C2 (amended): an explicit keyword argument always wins, even when a
positional argument also occupies the parameter's slot; when no keyword,
positional (at the parameter's declared index — unshifted for bound
calls), `*`- or `**`-expansion value binds the parameter and a default
is declared, the default's inference is returned.  Concretely for
`m(self, y=5)`: `A().m()` gives 5, `A().m(10)` gives 5 (the positional
never reaches `y`), `A().m(y=10)` gives 10, `A().m(10, y=99)` gives
99. -/
theorem c2_keyword_then_declared_index_then_default :
    (∀ (cc : CallCtx) (f : FuncNode) (name : String) (ctx : InfCtx) (e : SNode),
      assocGet cc.nargs name = some e →
      inferArgument cc f name ctx = inferSN e)
    ∧ (∀ (cc : CallCtx) (f : FuncNode) (name : String) (ctx : InfCtx) (i : Nat) (d : SNode),
      assocGet cc.nargs name = none →
      findArg f.args.args name = some i →
      ¬(i = 0 ∧ (f.ftype = .method ∨ f.ftype = .classmethod)) →
      cc.args.get? i = none →
      cc.starargs = none → cc.dstarargs = none →
      f.args.vararg ≠ some name → f.args.kwarg ≠ some name →
      defaultValue f.args name = .ok d →
      inferArgument cc f name ctx = inferSN d)
    ∧ inferArgument ccEmpty mFunc "y" ctxA = .ok [.node (.const (.int 5))]
    ∧ inferArgument ccPos10 mFunc "y" ctxA = .ok [.node (.const (.int 5))]
    ∧ inferArgument ccKw10 mFunc "y" ctxA = .ok [.node (.const (.int 10))]
    ∧ inferArgument ccPosKw mFunc "y" ctxA = .ok [.node (.const (.int 99))] := by
  refine ⟨?_, ?_, rfl, rfl, rfl, rfl⟩
  · intro cc f name ctx e h
    simp only [inferArgument, h]
  · intro cc f name ctx i d h0 hFind hNot hPos hSt hDst hV hK hDef
    simp only [inferArgument, h0, hFind]
    rw [if_neg hNot]
    simp only [hPos, hSt, iaTail, hDst]
    rw [if_neg hV, if_neg hK]
    simp only [hDef]

/-- Witness for C2: the keyword rule fired on `A().m(y=10)`. -/
theorem c2_keyword_then_declared_index_then_default_witness :
    inferArgument ccKw10 mFunc "y" ctxA = inferSN (.const (.int 10)) :=
  c2_keyword_then_declared_index_then_default.1 ccKw10 mFunc "y" ctxA (.const (.int 10)) rfl

/-- C3 counterexample: for `m2(self, z)` with no default, the unmatched
call `A().m2()` makes `infer_argument` fail with `InferenceError`, not
with `NoDefault`. -/
theorem c3_claim_counterexample :
    inferArgument ccEmpty m2Func "z" ctxA = .error .inferenceError
    ∧ inferArgument ccEmpty m2Func "z" ctxA ≠ .error .noDefault := by
  refine ⟨rfl, ?_⟩
  intro h
  rw [show inferArgument ccEmpty m2Func "z" ctxA = .error .inferenceError from rfl] at h
  simp at h

/-- C3 (amended): with no keyword, positional, `*`/`**`, or catch-all
resolution and no declared default, `Arguments.default_value` raises
`NoDefault`, and `infer_argument` catches it and raises
`InferenceError(name)` — so `infer_argument`'s own failure mode is
`InferenceError`, with `NoDefault` the internal signal. -/
theorem c3_nodefault_becomes_inference_error :
    (∀ (cc : CallCtx) (f : FuncNode) (name : String) (ctx : InfCtx) (i : Nat),
      assocGet cc.nargs name = none →
      findArg f.args.args name = some i →
      ¬(i = 0 ∧ (f.ftype = .method ∨ f.ftype = .classmethod)) →
      cc.args.get? i = none →
      cc.starargs = none → cc.dstarargs = none →
      f.args.vararg ≠ some name → f.args.kwarg ≠ some name →
      defaultValue f.args name = .error .noDefault →
      inferArgument cc f name ctx = .error .inferenceError)
    ∧ defaultValue m2Func.args "z" = .error .noDefault
    ∧ inferArgument ccEmpty m2Func "z" ctxA = .error .inferenceError := by
  refine ⟨?_, rfl, rfl⟩
  intro cc f name ctx i h0 hFind hNot hPos hSt hDst hV hK hDef
  simp only [inferArgument, h0, hFind]
  rw [if_neg hNot]
  simp only [hPos, hSt, iaTail, hDst]
  rw [if_neg hV, if_neg hK]
  simp only [hDef]

/-- Witness for C3: the conversion observed on the concrete call. -/
theorem c3_nodefault_becomes_inference_error_witness :
    inferArgument ccEmpty m2Func "z" ctxA = .error .inferenceError :=
  c3_nodefault_becomes_inference_error.1 ccEmpty m2Func "z" ctxA 1
    rfl rfl (by simp [m2Func]) rfl rfl rfl (by simp [m2Func]) (by simp [m2Func]) rfl

/-- C7 counterexample: a multi-dimensional subscript — here
`[7][0, 0]`, two index subscripts — makes `infer_subscript` raise
`InferenceError`; it does not yield the Unknown sentinel as a value. -/
theorem c7_claim_counterexample :
    inferSubscript (.lst [.const (.int 7)]) [.const (.int 0), .const (.int 0)]
      = .error .inferenceError
    ∧ inferSubscript (.lst [.const (.int 7)]) [.const (.int 0), .const (.int 0)]
      ≠ .ok [.yes] := by
  refine ⟨rfl, ?_⟩
  intro h
  rw [show inferSubscript (.lst [.const (.int 7)]) [.const (.int 0), .const (.int 0)]
      = .error .inferenceError from rfl] at h
  simp at h

/-- C7 (amended): a single concrete ordinal index on a
positionally-indexable value extracts the element at that (sign-aware)
index and recursively infers it; an index that infers to Unknown yields
Unknown, as does an extraction failing with `IndexError` (out of range);
but a subscript with any other number of dimensions raises
`InferenceError`, as do a slice-like index (no inference rule) and an
index whose single inferred value is not a concrete constant
(no `.value` attribute). -/
theorem c7_subscript_single_index :
    (∀ (elts : List SNode) (i : Int) (e : SNode), pyGet elts i = .ok e →
      inferSubscript (.lst elts) [.const (.int i)] = inferSN e)
    ∧ (∀ (elts : List SNode) (i : Int) (e : SNode), pyGet elts i = .ok e →
      inferSubscript (.tup elts) [.const (.int i)] = inferSN e)
    ∧ (∀ expr : SNode, inferSubscript expr [.emptyN] = .ok [.yes])
    ∧ (∀ (elts : List SNode) (i : Int), pyGet elts i = .error .indexErr →
      inferSubscript (.lst elts) [.const (.int i)] = .ok [.yes])
    ∧ (∀ (expr : SNode) (subs : List SNode), subs.length ≠ 1 →
      inferSubscript expr subs = .error .inferenceError)
    ∧ (∀ expr : SNode, inferSubscript expr [.sliceN] = .error .inferenceError)
    ∧ (∀ (expr : SNode) (elts : List SNode),
      inferSubscript expr [.lst elts] = .error .inferenceError) := by
  refine ⟨?_, ?_, fun expr => rfl, ?_, ?_, fun expr => rfl, fun expr elts => rfl⟩
  · intro elts i e h
    simp only [inferSubscript, inferSN, List.head?, constValue, getitemSN]
    rw [h]
  · intro elts i e h
    simp only [inferSubscript, inferSN, List.head?, constValue, getitemSN]
    rw [h]
  · intro elts i h
    simp only [inferSubscript, inferSN, List.head?, constValue, getitemSN]
    rw [h]
  · intro expr subs h
    match subs with
    | [] => rfl
    | [a] => exact absurd rfl h
    | a :: b :: rest => rfl

/-- Witness for C7: `[7, 8][1]` extracts and infers the element 8, and
`(7, 8)[-1]` the element 8 from the back. -/
theorem c7_subscript_single_index_witness :
    inferSubscript (.lst [.const (.int 7), .const (.int 8)]) [.const (.int 1)]
      = inferSN (.const (.int 8)) :=
  c7_subscript_single_index.1 [.const (.int 7), .const (.int 8)] 1 (.const (.int 8)) rfl

/-- C8: at the function's own catch-all parameter names the source
executes `return iter((nodes.const_factory(())))` — `iter` applied to
the `const_factory` node itself, because the intended one-element tuple
lacks its trailing comma — which raises `TypeError` (syntax nodes are
not iterable) instead of producing the one-element sequence holding an
empty tuple (resp. mapping) node. -/
theorem c8_catchall_iter_applied_to_node :
    inferArgument ccEmpty gFunc "args" ctx0 = .error .typeErr
    ∧ inferArgument ccEmpty gFunc "kw" ctx0 = .error .typeErr
    ∧ inferArgument ccEmpty gFunc "args" ctx0 ≠ .ok [.node (.tup [])]
    ∧ inferArgument ccEmpty gFunc "kw" ctx0 ≠ .ok [.node (.dictN [])] := by
  refine ⟨rfl, rfl, ?_, ?_⟩
  · intro h
    rw [show inferArgument ccEmpty gFunc "args" ctx0 = .error .typeErr from rfl] at h
    simp at h
  · intro h
    rw [show inferArgument ccEmpty gFunc "kw" ctx0 = .error .typeErr from rfl] at h
    simp at h

/-- C9 counterexample: applying `_filter_stmts` to a candidate sequence
it has already produced does not always return it unchanged — on `ex9`
(`x = 1; for x in y: pass; x = 2; if c: print x`) the first application
keeps the loop binding and the final rebinding, the second drops the
loop binding. -/
theorem c9_claim_counterexample :
    filterStmts ex9 selfP9 (filterStmts ex9 selfP9 cands9 [] 0) [] 0
      ≠ filterStmts ex9 selfP9 cands9 [] 0 := by
  intro h
  rw [show filterStmts ex9 selfP9 cands9 [] 0 = [[1, 0], [2, 0]] from rfl] at h
  rw [show filterStmts ex9 selfP9 [[1, 0], [2, 0]] [] 0 = [[2, 0]] from rfl] at h
  simp at h

/-- C9 (amended): `_filter_stmts` is not idempotent on every sequence it
has produced; re-filtering deletes an optional (loop-variable) binding
that the first pass kept together with a later same-block definite
rebinding — the first pass let the earliest definite binding absorb the
same-parent deletion, the second pass has only the optional binding left
to absorb it.  On `ex9` the first application yields the loop binding
`[1,0]` plus the rebinding `[2,0]`, and the second application yields
`[2,0]` alone. -/
theorem c9_refilter_drops_optional_binding :
    filterStmts ex9 selfP9 cands9 [] 0 = [[1, 0], [2, 0]]
    ∧ filterStmts ex9 selfP9 [[1, 0], [2, 0]] [] 0 = [[2, 0]] :=
  ⟨rfl, rfl⟩

/-- C10: `Dict.getitem` returns the value of the first item whose key
infers to a concrete constant equal to the lookup key — keys inferring
to Unknown are skipped — and when no item matches, the empty dict
included, it raises `IndexError` (not `KeyError`), the error kind its
internal call site catches: `infer_argument`'s `**`-expansion step
swallows the `IndexError` of a missing key and falls through to the
declared default. -/
theorem c10_dict_getitem_first_match :
    (∀ (items : List (SNode × SNode)) (k : PyVal),
      (∀ kv ∈ items, ∃ l, inferSN kv.1 = .ok l) →
      dictGetitem items k = dictGetitemSpec items k)
    ∧ dictGetitem [] (.str "p") = .error .indexErr
    ∧ inferArgument ccDstar hFunc "p" ctx0 = .ok [.node (.const (.int 7))] := by
  refine ⟨?_, rfl, rfl⟩
  intro items k
  induction items with
  | nil => intro _; rfl
  | cons kv rest ih =>
    intro h
    obtain ⟨key, value⟩ := kv
    obtain ⟨l, hl⟩ := h (key, value) (List.mem_cons_self _ _)
    have hl' : inferSN key = .ok l := hl
    have hrest : ∀ kv ∈ rest, ∃ l, inferSN kv.1 = .ok l :=
      fun kv hkv => h kv (List.mem_cons_of_mem _ hkv)
    have hcons : dictGetitem ((key, value) :: rest) k
        = if l.any (fun iv => match iv with
            | .node (.const v) => v = k
            | _ => false) then .ok value else dictGetitem rest k := by
      rw [dictGetitem, hl']
    by_cases hhit : l.any (fun iv => match iv with
        | .node (.const v) => v = k
        | _ => false) = true
    · have hkey : dictKeyHit key k = true := by
        rw [dictKeyHit, hl']
        exact hhit
      rw [hcons, if_pos hhit]
      rw [dictGetitemSpec, List.find?_cons_of_pos _ (by simpa using hkey)]
    · have hkey : dictKeyHit key k = false := by
        rw [dictKeyHit, hl']
        simpa using hhit
      rw [hcons, if_neg hhit]
      rw [dictGetitemSpec, List.find?_cons_of_neg _ (by simpa using hkey)]
      exact ih hrest

/-- Witness for C10: a one-item dict looked up at its own key. -/
theorem c10_dict_getitem_first_match_witness :
    dictGetitem [(SNode.const (.str "a"), SNode.const (.int 1))] (.str "a")
      = dictGetitemSpec [(SNode.const (.str "a"), SNode.const (.int 1))] (.str "a") :=
  c10_dict_getitem_first_match.1 _ _ (by
    intro kv hkv
    simp only [List.mem_singleton] at hkv
    rw [hkv]
    exact ⟨_, rfl⟩)
